import Mathlib

/-!
Verification of the CourtListener lawsuit-scanner repository
(`src/unnamed/part_000` = `courtlistener-scanner.js`, and `src/server.js`).

Shallow embedding conventions:
* JavaScript strings are Lean `String`s; a possibly-missing (`undefined`) field
  is an `Option`.
* A `dateFiled` value is abstracted by `Option Int`: `some v` stands for a date
  string whose JavaScript `new Date(...)` parse has time value `v`, and `none`
  stands for a missing or unparseable one (whose parse is `NaN`).
* The outcome of one outbound `fetch` is an explicit input (`FetchOutcome`),
  so the fail-soft behaviour of `searchCases` is a total function of it.
* `Array.prototype.sort(comparator)` is modelled by the canonical stable sort
  (`List.insertionSort` on the non-strict relation `comparator ≤ 0`), with the
  ECMAScript `SortCompare` coercion of a `NaN` comparator result to `+0`.
* The wall clock is abstracted: the `filed_after` date string and the
  `scannedAt` timestamp string are parameters of the scan functions.
-/

/-- The priority tier computed by the classifier (`analyzeCase`). -/
inductive Priority where
  | high
  | medium
  | low
deriving DecidableEq, Repr

/-- A record of the CourtListener V4 `/search/` response, restricted to the
fields the program consumes (`src/unnamed/part_000`, lines 162 and 186-195).
`dateFiled : Option Int` abstracts the date string by its `new Date` parse;
`none` is a missing or unparseable date. -/
structure RawCaseRecord where
  docket_id : Nat
  caseName : Option String
  docketNumber : Option String
  court : Option String
  dateFiled : Option Int
  cause : Option String
  docket_absolute_url : String
deriving DecidableEq, Repr

/-- Result of `analyzeCase` (`src/unnamed/part_000`, lines 168-172). -/
structure CaseAnalysis where
  isInteresting : Bool
  keywords : List String
  priority : Priority
deriving DecidableEq, Repr

/-- One entry pushed into `results` by the scan loops
(`src/unnamed/part_000`, lines 119-125; `src/server.js`, lines 175-181). -/
structure ScanBatch where
  company : String
  companyId : String
  searchTerm : String
  cases : List RawCaseRecord
  scannedAt : String
deriving DecidableEq, Repr

/-- A roster entry of `companies.json`, as consumed by the scan loops.
`priority` is the raw JSON string compared against `'high'`. -/
structure Company where
  id : String
  name : String
  legalNames : List String
  priority : String
deriving DecidableEq, Repr

/-- The object passed to the `onProgress` callback
(`src/unnamed/part_000`, lines 89-94 and 105-110). -/
structure ProgressEvent where
  message : String
  currentCompany : Nat
  totalCompanies : Nat
  companyName : String
deriving DecidableEq, Repr

/-- Status of the identifier `onProgress` at a call of `scanAllCompanies`.
In the repository the identifier is declared nowhere (it is neither a
parameter of `scanAllCompanies` nor any enclosing binding), which is the
`undeclared` case; `bound` models the spec's `scanAll(hoursBack, onProgress?)`
signature with a callback supplied. -/
inductive OnProgressBinding where
  | undeclared
  | bound
deriving DecidableEq, Repr

/-- A JavaScript runtime error relevant to the embedding: evaluating
`if (onProgress)` with `onProgress` undeclared throws a `ReferenceError`. -/
inductive JsError where
  | referenceError
deriving DecidableEq, Repr

/-- `caseData.caseName || ''` (and likewise for the other text fields):
a missing field contributes the empty string. -/
def jsOrEmpty : Option String → String
  | none => ""
  | some s => s

/-- JavaScript `String.prototype.includes`: substring containment. -/
def jsIncludes (s sub : String) : Bool :=
  decide (sub.toList <:+: s.toList)

/-- JavaScript `String.prototype.toLowerCase`, character-wise (the texts the
program lower-cases are ASCII). -/
def jsToLower (s : String) : String :=
  String.mk (s.data.map Char.toLower)

/-- The fixed keyword list of `analyzeCase`
(`src/unnamed/part_000`, lines 141-160). -/
def interestingKeywords : List String :=
  ["antitrust",
   "class action",
   "sexual harassment",
   "discrimination",
   "trade secrets",
   "intellectual property",
   "copyright",
   "trademark",
   "patent",
   "employment",
   "wrongful termination",
   "securities fraud",
   "consumer protection",
   "privacy",
   "data breach",
   "loot box",
   "gambling",
   "unfair business practices"]

/-- The lower-cased concatenated text of a case
(`src/unnamed/part_000`, line 162). -/
def caseText (caseData : RawCaseRecord) : String :=
  jsToLower (jsOrEmpty caseData.caseName ++ " " ++ jsOrEmpty caseData.docketNumber ++ " "
    ++ jsOrEmpty caseData.cause)

/-- The keywords found in a case's text
(`src/unnamed/part_000`, lines 164-166). -/
def foundKeywordsOf (caseData : RawCaseRecord) : List String :=
  interestingKeywords.filter fun keyword => jsIncludes (caseText caseData) (jsToLower keyword)

/-- The number of fixed keywords matched by a case's text. -/
def matchCount (caseData : RawCaseRecord) : Nat :=
  (foundKeywordsOf caseData).length

/-- `analyzeCase` (`src/unnamed/part_000`, lines 140-173). -/
def analyzeCase (caseData : RawCaseRecord) : CaseAnalysis :=
  let foundKeywords := foundKeywordsOf caseData
  { isInteresting := decide (foundKeywords.length > 0)
    keywords := foundKeywords
    priority :=
      if foundKeywords.length ≥ 2 then .high
      else if foundKeywords.length = 1 then .medium
      else .low }

/-- The query object built by `searchCases` from `URLSearchParams`
(`src/unnamed/part_000`, lines 18-25). -/
structure SearchQuery where
  q : String
  type : String
  filed_after : Option String
deriving DecidableEq, Repr

/-- `searchCases` quotes the term and requests RECAP dockets, appending
`filed_after` only when a date was given. -/
def buildQuery (companyName : String) (dateAfter : Option String) : SearchQuery :=
  { q := "\"" ++ companyName ++ "\"", type := "r", filed_after := dateAfter }

/-- The outcome of the single outbound `fetch` of `searchCases`: a transport
error (the promise rejects), or a response with its HTTP success flag
(`response.ok`) and, when the body parses, the optional `results` field. -/
inductive FetchOutcome where
  | transportError
  | response (ok : Bool) (results : Option (List RawCaseRecord))
deriving DecidableEq, Repr

/-- A fetch outcome the source treats as a failure: a transport error, or a
non-success (non-2xx) response (`!response.ok`). -/
def FetchOutcome.failed : FetchOutcome → Prop
  | .transportError => True
  | .response ok _ => ok = false

instance : DecidablePred FetchOutcome.failed := fun outcome =>
  match outcome with
  | .transportError => isTrue trivial
  | .response ok _ => inferInstanceAs (Decidable (ok = false))

/-- The `try` body of `searchCases` (`src/unnamed/part_000`, lines 29-41):
a transport error rejects, a non-success response throws, and otherwise the
result is `data.results || []`. -/
def searchCasesBody : FetchOutcome → Except String (List RawCaseRecord)
  | .transportError => .error "fetch failed"
  | .response ok results =>
      if ok then .ok (results.getD []) else .error "CourtListener API error"

/-- `searchCases` (`src/unnamed/part_000`, lines 17-46): the surrounding
`catch` turns every failure of the body into an empty result list, so the
function never propagates an exception. -/
def searchCases (fetch : SearchQuery → FetchOutcome) (companyName : String)
    (dateAfter : Option String) : List RawCaseRecord :=
  match searchCasesBody (fetch (buildQuery companyName dateAfter)) with
  | .ok cases => cases
  | .error _ => []

/-- The inner legal-name loop shared by the scan code paths
(`src/unnamed/part_000`, lines 115-131; `src/server.js`, lines 172-184):
one search per legal name in declared order, pushing a batch exactly when the
search returned at least one case. `search` is the ambient search client
applied to a term and the `filed_after` date string. -/
def scanCompanyLegalNames (search : String → String → List RawCaseRecord)
    (dateString nowString : String) (company : Company) : List ScanBatch :=
  company.legalNames.filterMap fun legalName =>
    let cases := search legalName dateString
    if cases.length > 0 then
      some { company := company.name, companyId := company.id, searchTerm := legalName,
             cases := cases, scannedAt := nowString }
    else none

/-- `scanAllCompanies` (`src/unnamed/part_000`, lines 73-135).
The function filters the roster to the companies with `priority === 'high'`
and, per company, runs the legal-name loop.  Before the loop it evaluates
`if (onProgress)` (line 88): when the identifier is undeclared — as it is
everywhere in the repository — that read throws a `ReferenceError`, so the
whole call fails.  When a callback is bound, the initial event and one event
per company are emitted; the emitted events are returned alongside the
batches. -/
def scanAllCompanies (companies : List Company)
    (search : String → String → List RawCaseRecord)
    (dateString nowString : String) (onProgress : OnProgressBinding) :
    Except JsError (List ScanBatch × List ProgressEvent) :=
  match onProgress with
  | .undeclared => .error .referenceError
  | .bound =>
    let highPriorityCompanies := companies.filter fun c => c.priority == "high"
    let totalCompanies := highPriorityCompanies.length
    let initialEvent : ProgressEvent :=
      { message := "Scanning " ++ toString totalCompanies ++ " companies..."
        currentCompany := 0
        totalCompanies := totalCompanies
        companyName := "" }
    let perCompanyEvents := highPriorityCompanies.enum.map fun p =>
      ({ message := "Scanning " ++ p.2.name ++ "..."
         currentCompany := p.1 + 1
         totalCompanies := totalCompanies
         companyName := p.2.name } : ProgressEvent)
    let results := highPriorityCompanies.flatMap fun company =>
      scanCompanyLegalNames search dateString nowString company
    .ok (results, initialEvent :: perCompanyEvents)

/-- The batch sequence described by claim C1, written from the claim's words:
iterate the roster, keeping only companies whose priority is high, in roster
order; for each of their legal names in declared order append one batch
exactly when that legal-name search yields at least one case; non-high
companies contribute nothing. -/
def claimScanBatches (companies : List Company)
    (search : String → String → List RawCaseRecord)
    (dateString nowString : String) : List ScanBatch :=
  companies.flatMap fun company =>
    if company.priority = "high" then
      company.legalNames.flatMap fun legalName =>
        if search legalName dateString = [] then []
        else [{ company := company.name, companyId := company.id, searchTerm := legalName,
                cases := search legalName dateString, scannedAt := nowString }]
    else []

/-- The error surfaced by the single-company scan routes. -/
inductive ScanOneError where
  | notFound
deriving DecidableEq, Repr

/-- The single-company scan (`src/server.js`, lines 158-184, and the same
shape at lines 440-489): look the company up by id, answer 404
(`Company not found`) when absent, and otherwise run the legal-name loop.
The second component is the trace of external search calls issued, one
`(term, filed_after)` pair per call. -/
def scanOne (companies : List Company)
    (search : String → String → List RawCaseRecord)
    (dateString nowString : String) (companyId : String) :
    Except ScanOneError (List ScanBatch) × List (String × String) :=
  match companies.find? fun c => c.id == companyId with
  | none => (.error .notFound, [])
  | some company =>
      (.ok (scanCompanyLegalNames search dateString nowString company),
       company.legalNames.map fun legalName => (legalName, dateString))

/-- One formatted record pushed by `formatResults`
(`src/unnamed/part_000`, lines 186-198). -/
structure FormattedLawsuit where
  id : Nat
  company : String
  companyId : String
  caseName : Option String
  docketNumber : Option String
  court : Option String
  dateFiled : Option Int
  cause : Option String
  url : String
  analysis : CaseAnalysis
  scannedAt : String
deriving DecidableEq, Repr

/-- Builds one `FormattedLawsuit` from a batch and one of its cases
(`src/unnamed/part_000`, lines 184-198). -/
def formatCase (result : ScanBatch) (caseData : RawCaseRecord) : FormattedLawsuit :=
  { id := caseData.docket_id
    company := result.company
    companyId := result.companyId
    caseName := caseData.caseName
    docketNumber := caseData.docketNumber
    court := caseData.court
    dateFiled := caseData.dateFiled
    cause := caseData.cause
    url := "https://www.courtlistener.com" ++ caseData.docket_absolute_url
    analysis := analyzeCase caseData
    scannedAt := result.scannedAt }

/-- `priorityOrder` of the sort comparator
(`src/unnamed/part_000`, line 204). -/
def priorityOrder : Priority → Int
  | .high => 0
  | .medium => 1
  | .low => 2

/-- The comparator of `formatted.sort` (`src/unnamed/part_000`, lines 203-210),
composed with the ECMAScript `SortCompare` coercion: when the priority ranks
differ their difference decides; otherwise the value is
`new Date(b.dateFiled) - new Date(a.dateFiled)`, which is a number only when
both dates parse, and is `NaN` — coerced to `+0` by `SortCompare` — when either
date is missing or unparseable. -/
def sortCompare (a b : FormattedLawsuit) : Int :=
  let priorityDiff := priorityOrder a.analysis.priority - priorityOrder b.analysis.priority
  if priorityDiff ≠ 0 then priorityDiff
  else
    match b.dateFiled, a.dateFiled with
    | some db, some da => db - da
    | _, _ => 0

/-- `a` may be placed before `b` by the stable sort: comparator value `≤ 0`. -/
def sortLe (a b : FormattedLawsuit) : Prop := sortCompare a b ≤ 0

instance : DecidableRel sortLe := fun a b =>
  inferInstanceAs (Decidable (sortCompare a b ≤ 0))

/-- The flattening pass of `formatResults` (`src/unnamed/part_000`,
lines 180-200): every case of every batch, in input order. -/
def formattedOf (scanResults : List ScanBatch) : List FormattedLawsuit :=
  scanResults.flatMap fun result => result.cases.map fun caseData => formatCase result caseData

/-- `formatResults` (`src/unnamed/part_000`, lines 179-213): flatten, then the
stable comparator sort. -/
def formatResults (scanResults : List ScanBatch) : List FormattedLawsuit :=
  List.insertionSort sortLe (formattedOf scanResults)

/-- A row of the `lawsuits` table (`src/server.js`, lines 30-46). Timestamps
are abstract `Nat` instants; `date_filed` uses the same abstraction as
`FormattedLawsuit.dateFiled`. -/
structure LawsuitRow where
  case_id : Nat
  company_id : String
  company_name : String
  case_name : Option String
  docket_number : Option String
  court : Option String
  date_filed : Option Int
  cause : Option String
  url : String
  priority : Priority
  keywords : List String
  scanned_at : Nat
  created_at : Nat
deriving DecidableEq, Repr

/-- The row inserted for a lawsuit by the `INSERT` column list
(`src/server.js`, lines 192-211); `scanned_at` and `created_at` take their
`DEFAULT NOW()` values. -/
def rowOfLawsuit (lawsuit : FormattedLawsuit) (nowTs : Nat) : LawsuitRow :=
  { case_id := lawsuit.id
    company_id := lawsuit.companyId
    company_name := lawsuit.company
    case_name := lawsuit.caseName
    docket_number := lawsuit.docketNumber
    court := lawsuit.court
    date_filed := lawsuit.dateFiled
    cause := lawsuit.cause
    url := lawsuit.url
    priority := lawsuit.analysis.priority
    keywords := lawsuit.analysis.keywords
    scanned_at := nowTs
    created_at := nowTs }

/-- The upsert of `src/server.js`, lines 192-211:
`INSERT ... ON CONFLICT (case_id) DO UPDATE SET scanned_at = NOW()`.
When a row with the same `case_id` exists only its `scanned_at` is refreshed;
otherwise the new row is appended. The table is the list of rows in storage
order. -/
def upsertLawsuit (table : List LawsuitRow) (lawsuit : FormattedLawsuit)
    (nowTs : Nat) : List LawsuitRow :=
  if table.any fun row => row.case_id == lawsuit.id then
    table.map fun row =>
      if row.case_id == lawsuit.id then { row with scanned_at := nowTs } else row
  else
    table ++ [rowOfLawsuit lawsuit nowTs]

/-- Claim C3's reading of the output order, from the spec's words: a record
with a missing/unparseable `dateFiled` sorts as the oldest, so within its
priority rank it is placed after every record with a parseable `dateFiled`;
equivalently, no record with an unparseable date ever precedes a record of
equal rank with a parseable date. -/
def unparseableSortsOldest (l : List FormattedLawsuit) : Prop :=
  l.Pairwise fun a b =>
    ¬(a.analysis.priority = b.analysis.priority ∧ a.dateFiled = none ∧ b.dateFiled ≠ none)

instance : DecidablePred unparseableSortsOldest := fun l =>
  inferInstanceAs (Decidable (l.Pairwise _))

/-- Claim C4's reading of `dateFiled(x) ≥ dateFiled(y)`, with the spec's
convention that a missing/unparseable date is the earliest possible date. -/
def specDateGE : Option Int → Option Int → Prop
  | _, none => True
  | none, some _ => False
  | some dx, some dy => dy ≤ dx

instance : DecidableRel specDateGE := fun x y =>
  match x, y with
  | none, none => isTrue trivial
  | some _, none => isTrue trivial
  | none, some _ => isFalse fun h => h
  | some dx, some dy => inferInstanceAs (Decidable (dy ≤ dx))

/-- Claim C4's adjacent-pair sortedness, from the claim's words: for any
adjacent pair `(a, b)` of the output, `priorityRank(a) ≤ priorityRank(b)`, and
when the ranks are equal `dateFiled(a) ≥ dateFiled(b)` (dates compared with
the spec's missing-is-earliest convention); stated as `rank a < rank b`, or
`rank a = rank b` together with the date comparison. -/
def claimSortedC4 : List FormattedLawsuit → Prop
  | [] => True
  | [_] => True
  | a :: b :: rest =>
    (priorityOrder a.analysis.priority < priorityOrder b.analysis.priority ∨
      (priorityOrder a.analysis.priority = priorityOrder b.analysis.priority ∧
        specDateGE a.dateFiled b.dateFiled)) ∧ claimSortedC4 (b :: rest)

def claimSortedC4Dec : (l : List FormattedLawsuit) → Decidable (claimSortedC4 l)
  | [] => isTrue trivial
  | [_] => isTrue trivial
  | _ :: b :: rest =>
    haveI := claimSortedC4Dec (b :: rest)
    inferInstanceAs (Decidable (_ ∧ _))

instance : DecidablePred claimSortedC4 := claimSortedC4Dec

/-! Concrete inputs used by the counterexamples and witnesses. All text fields
are chosen keyword-free, so every analysis below is `low` priority. -/

/-- A roster with one high-priority company, used for claim C1. -/
def exRosterC1 : List Company :=
  [{ id := "acme", name := "Acme", legalNames := ["Acme Inc", "Acme Corp"], priority := "high" }]

/-- A search client returning no cases, used for claim C1. -/
def exSearchC1 : String → String → List RawCaseRecord := fun _ _ => []

/-- A case found by the claim C2 scenario's search client. -/
def exRawC2 : RawCaseRecord :=
  { docket_id := 11, caseName := none, docketNumber := none, court := none,
    dateFiled := some 5, cause := none, docket_absolute_url := "/docket/11/" }

/-- A roster with one high-priority company, used for claim C2. -/
def exRosterC2 : List Company :=
  [{ id := "acme", name := "Acme", legalNames := ["Acme Inc"], priority := "high" }]

/-- A search client finding one case for every term, used for claim C2. -/
def exSearchC2 : String → String → List RawCaseRecord := fun _ _ => [exRawC2]

/-- Claim C3 counterexample input: a recent parseable date. -/
def exRawC3b : RawCaseRecord :=
  { docket_id := 1, caseName := none, docketNumber := none, court := none,
    dateFiled := some 2020, cause := none, docket_absolute_url := "/docket/1/" }

/-- Claim C3 counterexample input: a missing/unparseable date. -/
def exRawC3m : RawCaseRecord :=
  { docket_id := 2, caseName := none, docketNumber := none, court := none,
    dateFiled := none, cause := none, docket_absolute_url := "/docket/2/" }

/-- Claim C3 counterexample input: an older parseable date. -/
def exRawC3a : RawCaseRecord :=
  { docket_id := 3, caseName := none, docketNumber := none, court := none,
    dateFiled := some 2010, cause := none, docket_absolute_url := "/docket/3/" }

/-- The claim C3 counterexample batch: cases in input order recent-parseable,
unparseable, old-parseable, all of equal (low) priority. -/
def exBatchesC3 : List ScanBatch :=
  [{ company := "Acme", companyId := "acme", searchTerm := "Acme Inc",
     cases := [exRawC3b, exRawC3m, exRawC3a], scannedAt := "t0" }]

/-- Claim C3 witness input: an unparseable date followed by a parseable one. -/
def exRawC3wx : RawCaseRecord :=
  { docket_id := 4, caseName := none, docketNumber := none, court := none,
    dateFiled := none, cause := none, docket_absolute_url := "/docket/4/" }

/-- Claim C3 witness input: the parseable-dated record after it. -/
def exRawC3wy : RawCaseRecord :=
  { docket_id := 5, caseName := none, docketNumber := none, court := none,
    dateFiled := some 7, cause := none, docket_absolute_url := "/docket/5/" }

/-- The claim C3 witness batch. -/
def exBatchC3w : ScanBatch :=
  { company := "Acme", companyId := "acme", searchTerm := "Acme Inc",
    cases := [exRawC3wx, exRawC3wy], scannedAt := "t0" }

/-- Claim C4 counterexample input: a recent parseable date. -/
def exRawC4b : RawCaseRecord :=
  { docket_id := 6, caseName := none, docketNumber := none, court := none,
    dateFiled := some 300, cause := none, docket_absolute_url := "/docket/6/" }

/-- Claim C4 counterexample input: a missing/unparseable date. -/
def exRawC4m : RawCaseRecord :=
  { docket_id := 7, caseName := none, docketNumber := none, court := none,
    dateFiled := none, cause := none, docket_absolute_url := "/docket/7/" }

/-- Claim C4 counterexample input: an older parseable date. -/
def exRawC4a : RawCaseRecord :=
  { docket_id := 8, caseName := none, docketNumber := none, court := none,
    dateFiled := some 100, cause := none, docket_absolute_url := "/docket/8/" }

/-- The claim C4 counterexample batch, same shape as the C3 one. -/
def exBatchesC4 : List ScanBatch :=
  [{ company := "Acme", companyId := "acme", searchTerm := "Acme Corp",
     cases := [exRawC4b, exRawC4m, exRawC4a], scannedAt := "t1" }]

/-- Claim C4 witness input: first of two equal-comparing records. -/
def exRawC4wx : RawCaseRecord :=
  { docket_id := 9, caseName := none, docketNumber := none, court := none,
    dateFiled := some 50, cause := none, docket_absolute_url := "/docket/9/" }

/-- Claim C4 witness input: second record with equal priority and date. -/
def exRawC4wy : RawCaseRecord :=
  { docket_id := 10, caseName := none, docketNumber := none, court := none,
    dateFiled := some 50, cause := none, docket_absolute_url := "/docket/10/" }

/-- The claim C4 witness batch. -/
def exBatchC4w : ScanBatch :=
  { company := "Acme", companyId := "acme", searchTerm := "Acme Corp",
    cases := [exRawC4wx, exRawC4wy], scannedAt := "t1" }

/-- Claim C5 witness: the first upsert of a case, with one cause text. -/
def exLawsuitC5a : FormattedLawsuit :=
  { id := 77, company := "Acme", companyId := "acme", caseName := some "Doe v Acme",
    docketNumber := some "1:24-cv-1", court := some "SDNY", dateFiled := some 40,
    cause := some "breach of contract", url := "https://www.courtlistener.com/docket/77/",
    analysis := { isInteresting := false, keywords := [], priority := .low },
    scannedAt := "t2" }

/-- Claim C5 witness: a later upsert of the same case id with different cause
text. -/
def exLawsuitC5b : FormattedLawsuit :=
  { id := 77, company := "Acme", companyId := "acme", caseName := some "Doe v Acme",
    docketNumber := some "1:24-cv-1", court := some "SDNY", dateFiled := some 40,
    cause := some "fraud", url := "https://www.courtlistener.com/docket/77/",
    analysis := { isInteresting := false, keywords := [], priority := .low },
    scannedAt := "t3" }

/-- Claim C6 witness: a fetch whose outcome is a transport error. -/
def exFetchC6 : SearchQuery → FetchOutcome := fun _ => .transportError

/-- Claim C7 witness roster. -/
def exRosterC7 : List Company :=
  [{ id := "acme", name := "Acme", legalNames := ["Acme Inc"], priority := "high" }]

/-- Claim C7 witness search client. -/
def exSearchC7 : String → String → List RawCaseRecord := fun _ _ => []

/-! Helper lemmas about the stable sort and the comparator. -/

/-- Inserting into a chain with a total relation preserves the adjacent-pair
chain property (no transitivity needed). -/
lemma chain'_orderedInsert {α : Type} (r : α → α → Prop) [DecidableRel r]
    (total : ∀ a b, r a b ∨ r b a) (a : α) :
    ∀ l : List α, l.Chain' r → (l.orderedInsert r a).Chain' r := by
  intro l
  induction l with
  | nil => intro _; simp [List.orderedInsert]
  | cons b l ih =>
    intro h
    rw [List.orderedInsert]
    split_ifs with hr
    · exact List.chain'_cons.mpr ⟨hr, h⟩
    · obtain ⟨hb, hl⟩ := List.chain'_cons'.mp h
      refine List.chain'_cons'.mpr ⟨?_, ih hl⟩
      intro y hy
      cases l with
      | nil =>
        simp [List.orderedInsert] at hy
        subst hy
        exact (total a b).resolve_left hr
      | cons c l' =>
        rw [List.orderedInsert] at hy
        split_ifs at hy with hac
        · simp at hy
          subst hy
          exact (total a b).resolve_left hr
        · simp at hy
          subst hy
          exact hb c rfl

/-- The insertion sort of any list satisfies the adjacent-pair chain property
for a total relation, transitive or not. -/
lemma chain'_insertionSort {α : Type} (r : α → α → Prop) [DecidableRel r]
    (total : ∀ a b, r a b ∨ r b a) :
    ∀ l : List α, (l.insertionSort r).Chain' r
  | [] => List.chain'_nil
  | b :: l => by
    rw [List.insertionSort]
    exact chain'_orderedInsert r total b _ (chain'_insertionSort r total l)

/-- Stability of the insertion sort: two elements in relation keep their
relative order. -/
lemma pair_sublist_insertionSort {α : Type} (r : α → α → Prop) [DecidableRel r]
    {x y : α} (hxy : r x y) :
    ∀ {l : List α}, List.Sublist [x, y] l → List.Sublist [x, y] (l.insertionSort r) := by
  intro l
  induction l with
  | nil => intro h; exact absurd (List.sublist_nil.mp h) (by simp)
  | cons a l ih =>
    intro h
    rw [List.insertionSort]
    cases h with
    | cons _ h' =>
      exact (ih h').trans (List.sublist_orderedInsert a _)
    | cons₂ _ h' =>
      refine List.cons_sublist_orderedInsert ?_ ?_
      · exact List.singleton_sublist.mpr
          ((List.mem_insertionSort r).mpr (List.singleton_sublist.mp h'))
      · intro a' ha'
        simp at ha'
        subst ha'
        exact hxy

/-- The comparator is antisymmetric in sign, `NaN` cases included. -/
lemma sortCompare_swap (a b : FormattedLawsuit) : sortCompare b a = -sortCompare a b := by
  rcases hda : a.dateFiled with _ | da <;> rcases hdb : b.dateFiled with _ | db <;>
    simp only [sortCompare, hda, hdb] <;> split_ifs <;> omega

/-- `sortLe` is total. -/
lemma sortLe_total : ∀ a b : FormattedLawsuit, sortLe a b ∨ sortLe b a := by
  intro a b
  have h := sortCompare_swap a b
  unfold sortLe
  omega

/-- What a non-positive comparator value says about ranks and, at equal rank,
about parseable dates. -/
lemma sortCompare_nonpos {a b : FormattedLawsuit} (h : sortCompare a b ≤ 0) :
    priorityOrder a.analysis.priority ≤ priorityOrder b.analysis.priority ∧
      (priorityOrder a.analysis.priority = priorityOrder b.analysis.priority →
        ∀ da db, a.dateFiled = some da → b.dateFiled = some db → db ≤ da) := by
  constructor
  · rcases hda : a.dateFiled with _ | da <;> rcases hdb : b.dateFiled with _ | db <;>
      simp only [sortCompare, hda, hdb] at h <;> split_ifs at h <;> omega
  · intro heq da db h1 h2
    simp only [sortCompare, h1, h2] at h
    split_ifs at h <;> omega

/-- The legal-name loop as a flatMap over legal names, keeping exactly the
non-empty search results. -/
lemma scanCompanyLegalNames_eq (search : String → String → List RawCaseRecord)
    (dateString nowString : String) (company : Company) :
    scanCompanyLegalNames search dateString nowString company
      = company.legalNames.flatMap fun legalName =>
          if search legalName dateString = [] then []
          else [{ company := company.name, companyId := company.id, searchTerm := legalName,
                  cases := search legalName dateString, scannedAt := nowString }] := by
  unfold scanCompanyLegalNames
  generalize company.legalNames = lns
  induction lns with
  | nil => rfl
  | cons ln lns ih =>
    simp only [List.filterMap_cons, List.flatMap_cons]
    rcases hs : search ln dateString with _ | ⟨c, cs⟩
    · simp [hs, ih]
    · simp [hs, ih]

/-- Restricting a roster to its high-priority entries before iterating is the
same as iterating the whole roster and skipping the rest. -/
lemma filter_high_flatMap (companies : List Company) (f : Company → List ScanBatch) :
    (companies.filter fun c => c.priority == "high").flatMap f
      = companies.flatMap fun c => if c.priority = "high" then f c else [] := by
  induction companies with
  | nil => rfl
  | cons c cs ih =>
    by_cases h : c.priority = "high"
    · simp [List.filter_cons, h, ih]
    · simp [List.filter_cons, h, ih]

/-- Claim C1, amended: when a progress callback is bound (the spec's intended
`scanAll(hoursBack, onProgress?)` signature), `scanAllCompanies` returns
exactly the batches described by the claim: iterating only the roster
companies whose priority is high, in roster order, and for each legal name in
declared order one `ScanBatch` exactly when that search yields at least one
case; non-high-priority companies contribute no batch. As written — with the
repository's undeclared `onProgress` — the call returns no batch sequence at
all (see the counterexample). -/
theorem scanAll_bound_returns_claimed_batches (companies : List Company)
    (search : String → String → List RawCaseRecord) (dateString nowString : String) :
    (scanAllCompanies companies search dateString nowString .bound).map Prod.fst
      = Except.ok (claimScanBatches companies search dateString nowString) := by
  simp only [scanAllCompanies, Except.map]
  congr 1
  rw [filter_high_flatMap]
  unfold claimScanBatches
  congr 1
  funext c
  by_cases h : c.priority = "high"
  · simp [h, scanCompanyLegalNames_eq]
  · simp [h]

/-- Claim C1, counterexample to the claim as stated: invoked the way the
repository invokes it — with the identifier `onProgress` undeclared —
`scanAllCompanies` does not return the claimed batch sequence (it throws a
`ReferenceError` instead). -/
theorem scanAll_as_written_returns_no_batches :
    (scanAllCompanies exRosterC1 exSearchC1 "2025-03-01" "2025-03-02T00:00:00Z"
        .undeclared).map Prod.fst
      ≠ Except.ok (claimScanBatches exRosterC1 exSearchC1 "2025-03-01"
          "2025-03-02T00:00:00Z") := by
  simp [scanAllCompanies, Except.map]

/-- Claim C2 (code bug): on identical inputs, running with a bound progress
callback succeeds and returns one batch, while running with the callback
absent — the only state the repository's code can be in, since `onProgress`
is declared nowhere — fails with a `ReferenceError`. The absence of the
progress mechanism therefore does alter the scan result, contradicting the
spec's best-effort requirement. -/
theorem scanAll_without_callback_fails :
    scanAllCompanies exRosterC2 exSearchC2 "2025-03-01" "t" .undeclared
        = Except.error JsError.referenceError ∧
      (scanAllCompanies exRosterC2 exSearchC2 "2025-03-01" "t" .bound).map Prod.fst
        = Except.ok [{ company := "Acme", companyId := "acme", searchTerm := "Acme Inc",
                       cases := [exRawC2], scannedAt := "t" }] := by
  constructor
  · rfl
  · rfl

/-- Claim C3, counterexample to the claim as stated: on the concrete input
batch with cases dated `some 2020`, `none`, `some 2010` (all of equal
priority), `formatResults` leaves the unparseable-dated record between the
two parseable ones — it is not placed after every record with a parseable
`dateFiled` in its rank. -/
theorem formatResults_unparseable_not_oldest :
    ¬ unparseableSortsOldest (formatResults exBatchesC3) := by
  decide

/-- Claim C3, amended: a record with a missing/unparseable `dateFiled` does
not sort as the oldest; its comparator value against every record of equal
priority is `NaN`, which `SortCompare` coerces to `+0`, so the stable sort
keeps it in its relative input position: whenever a pair of records of equal
priority, at least one of which has an unparseable date, occurs in input
order, the output keeps that order. -/
theorem formatResults_unparseable_keeps_input_order
    (batches : List ScanBatch) (x y : FormattedLawsuit)
    (hsub : List.Sublist [x, y] (formattedOf batches))
    (hrank : x.analysis.priority = y.analysis.priority)
    (hnone : x.dateFiled = none ∨ y.dateFiled = none) :
    List.Sublist [x, y] (formatResults batches) := by
  have hle : sortLe x y := by
    unfold sortLe
    rcases hnone with h | h <;>
      simp only [sortCompare, hrank, h] <;>
      rcases hx : x.dateFiled with _ | dx <;> rcases hy : y.dateFiled with _ | dy <;> simp
  exact pair_sublist_insertionSort sortLe hle hsub

/-- Claim C3 witness: a concrete equal-priority pair, the first with an
unparseable date, the second with a parseable one, stays in input order in
the output of `formatResults` — so the unparseable record sits before a
parseable one. -/
theorem formatResults_unparseable_keeps_input_order_witness :
    (formatCase exBatchC3w exRawC3wx).analysis.priority
        = (formatCase exBatchC3w exRawC3wy).analysis.priority ∧
      (formatCase exBatchC3w exRawC3wx).dateFiled = none ∧
      List.Sublist [formatCase exBatchC3w exRawC3wx, formatCase exBatchC3w exRawC3wy]
        (formatResults [exBatchC3w]) :=
  ⟨by decide, by decide,
    formatResults_unparseable_keeps_input_order [exBatchC3w]
      (formatCase exBatchC3w exRawC3wx) (formatCase exBatchC3w exRawC3wy)
      (List.Sublist.refl _) (by decide) (Or.inl (by decide))⟩

/-- Claim C4, counterexample to the claim as stated: on the concrete input
with cases dated `some 300`, `none`, `some 100` (all of equal priority), the
output of `formatResults` has the unparseable-dated record — the earliest
possible date under the spec's convention — immediately before a record dated
`some 100`, violating `dateFiled(a) ≥ dateFiled(b)` for that adjacent
equal-rank pair. -/
theorem formatResults_not_claim_sorted :
    ¬ claimSortedC4 (formatResults exBatchesC4) := by
  decide

/-- Claim C4, amended: for any input, every adjacent output pair `(a, b)`
satisfies `priorityRank(a) ≤ priorityRank(b)`, and when the ranks are equal
and both records have parseable dates, `dateFiled(a) ≥ dateFiled(b)` — an
adjacent pair either of whose dates is missing/unparseable carries no date
constraint (its comparator value is `NaN`, coerced to `+0`); moreover the
sort is stable: any pair tied by the comparator — in particular records of
equal priority and equal date — keeps its relative input order. -/
theorem formatResults_sorted_and_stable (batches : List ScanBatch) :
    ((formatResults batches).Chain' fun a b =>
        priorityOrder a.analysis.priority ≤ priorityOrder b.analysis.priority ∧
          (priorityOrder a.analysis.priority = priorityOrder b.analysis.priority →
            ∀ da db, a.dateFiled = some da → b.dateFiled = some db → db ≤ da)) ∧
      ∀ x y : FormattedLawsuit, List.Sublist [x, y] (formattedOf batches) →
        sortCompare x y = 0 → List.Sublist [x, y] (formatResults batches) := by
  constructor
  · have hch := chain'_insertionSort sortLe sortLe_total (formattedOf batches)
    exact hch.imp fun a b hab => sortCompare_nonpos hab
  · intro x y hsub h0
    exact pair_sublist_insertionSort sortLe (by unfold sortLe; omega) hsub

/-- Claim C4 witness: two concrete records of equal priority and equal
parseable date keep their input order in the output. -/
theorem formatResults_sorted_and_stable_witness :
    sortCompare (formatCase exBatchC4w exRawC4wx) (formatCase exBatchC4w exRawC4wy) = 0 ∧
      List.Sublist [formatCase exBatchC4w exRawC4wx, formatCase exBatchC4w exRawC4wy]
        (formatResults [exBatchC4w]) :=
  ⟨by decide,
    (formatResults_sorted_and_stable [exBatchC4w]).2
      (formatCase exBatchC4w exRawC4wx) (formatCase exBatchC4w exRawC4wy)
      (List.Sublist.refl _) (by decide)⟩

/-- Claim C5: the upsert's conflict clause updates `scanned_at` only. When a
row with the lawsuit's `case_id` is already stored, the table is mapped row
by row: the conflicting row gets the new `scanned_at` and keeps every other
field, all other rows are untouched, and no row is added. Consequently, on a
table holding no row for the id yet, upserting a lawsuit twice — the second
time with any (possibly different) content — stores the first call's content
with the second call's timestamp, in a single row. -/
theorem upsertLawsuit_first_write_wins :
    (∀ (table : List LawsuitRow) (lawsuit : FormattedLawsuit) (ts : Nat),
        (∃ row ∈ table, row.case_id = lawsuit.id) →
        upsertLawsuit table lawsuit ts
          = table.map fun row =>
              if row.case_id = lawsuit.id then { row with scanned_at := ts } else row) ∧
      ∀ (table : List LawsuitRow) (l1 l2 : FormattedLawsuit) (t1 t2 : Nat),
        (∀ row ∈ table, row.case_id ≠ l1.id) → l2.id = l1.id →
        upsertLawsuit (upsertLawsuit table l1 t1) l2 t2
          = table ++ [{ rowOfLawsuit l1 t1 with scanned_at := t2 }] := by
  constructor
  · intro table lawsuit ts h
    obtain ⟨row0, hmem, hid⟩ := h
    unfold upsertLawsuit
    rw [if_pos (List.any_eq_true.mpr ⟨row0, hmem, by simp [hid]⟩)]
    apply List.map_congr_left
    intro row _
    by_cases hr : row.case_id = lawsuit.id <;> simp [hr]
  · intro table l1 l2 t1 t2 hnone hid
    have h1 : upsertLawsuit table l1 t1 = table ++ [rowOfLawsuit l1 t1] := by
      unfold upsertLawsuit
      rw [if_neg]
      intro hany
      obtain ⟨row, hmem, hbeq⟩ := List.any_eq_true.mp hany
      exact hnone row hmem (by simpa using hbeq)
    rw [h1]
    unfold upsertLawsuit
    rw [if_pos (List.any_eq_true.mpr
      ⟨rowOfLawsuit l1 t1, by simp, by simp [rowOfLawsuit, hid]⟩)]
    rw [List.map_append]
    congr 1
    · have : ∀ row ∈ table,
          (if (row.case_id == l2.id) = true then { row with scanned_at := t2 } else row) = row := by
        intro row hmem
        rw [if_neg]
        simp only [beq_iff_eq, hid]
        exact hnone row hmem
      rw [List.map_congr_left this]
      exact List.map_id' table
    · simp [rowOfLawsuit, hid]

/-- Claim C5 witness: upserting the concrete case id 77 twice, first with
cause `breach of contract` at time 5, then with cause `fraud` at time 9,
leaves one row whose content is the first call's and whose `scanned_at` is
the second call's. -/
theorem upsertLawsuit_first_write_wins_witness :
    upsertLawsuit (upsertLawsuit [] exLawsuitC5a 5) exLawsuitC5b 9
      = [{ rowOfLawsuit exLawsuitC5a 5 with scanned_at := 9 }] :=
  upsertLawsuit_first_write_wins.2 [] exLawsuitC5a exLawsuitC5b 5 9
    (by simp) (by decide)

/-- Claim C6: for every search term and every `filedAfter` date, whenever the
outbound call's outcome is a transport error or a non-success response,
`searchCases` returns the empty list — the failure is absorbed by the `catch`
and never surfaces to the caller. -/
theorem searchCases_fail_soft (fetch : SearchQuery → FetchOutcome)
    (companyName : String) (dateAfter : Option String)
    (h : (fetch (buildQuery companyName dateAfter)).failed) :
    searchCases fetch companyName dateAfter = [] := by
  unfold searchCases
  rcases ho : fetch (buildQuery companyName dateAfter) with _ | ⟨ok, results⟩
  · rfl
  · rw [ho] at h
    unfold FetchOutcome.failed at h
    subst h
    rfl

/-- Claim C6 witness: a concrete transport-error fetch yields the empty
result list. -/
theorem searchCases_fail_soft_witness :
    (exFetchC6 (buildQuery "Acme Inc" (some "2025-03-01"))).failed ∧
      searchCases exFetchC6 "Acme Inc" (some "2025-03-01") = [] :=
  ⟨trivial, searchCases_fail_soft exFetchC6 "Acme Inc" (some "2025-03-01") trivial⟩

/-- Claim C7: for every roster, search client and `hoursBack` date, a
`companyId` matching no roster entry makes the single-company scan fail with
the not-found error, and the trace of external search calls is empty. -/
theorem scanOne_absent_id_not_found (companies : List Company)
    (search : String → String → List RawCaseRecord)
    (dateString nowString companyId : String)
    (h : ∀ c ∈ companies, c.id ≠ companyId) :
    scanOne companies search dateString nowString companyId
      = (Except.error ScanOneError.notFound, []) := by
  unfold scanOne
  have hfind : companies.find? (fun c => c.id == companyId) = none := by
    apply List.find?_eq_none.mpr
    intro c hc
    simp [h c hc]
  rw [hfind]

/-- Claim C7 witness: the concrete roster containing only `acme` makes the
scan of `umbrella` fail with not-found and issue zero search calls. -/
theorem scanOne_absent_id_not_found_witness :
    scanOne exRosterC7 exSearchC7 "2025-03-01" "t" "umbrella"
      = (Except.error ScanOneError.notFound, []) :=
  scanOne_absent_id_not_found exRosterC7 exSearchC7 "2025-03-01" "t" "umbrella"
    (by decide)


/-- Claim C8: the classifier's priority tier is determined by the number of
matched fixed keywords — `low` exactly when none matches, `medium` exactly
when one matches, `high` exactly when two or more match. -/
theorem analyzeCase_priority_tiers (caseData : RawCaseRecord) :
    ((analyzeCase caseData).priority = Priority.low ↔ matchCount caseData = 0) ∧
      ((analyzeCase caseData).priority = Priority.medium ↔ matchCount caseData = 1) ∧
      ((analyzeCase caseData).priority = Priority.high ↔ 2 ≤ matchCount caseData) := by
  have hk : (analyzeCase caseData).priority =
      (if matchCount caseData ≥ 2 then Priority.high
       else if matchCount caseData = 1 then Priority.medium else Priority.low) := rfl
  rw [hk]
  by_cases h2 : matchCount caseData ≥ 2
  · rw [if_pos h2]
    refine ⟨?_, ?_, ?_⟩ <;> simp <;> omega
  · rw [if_neg h2]
    by_cases h1 : matchCount caseData = 1
    · rw [if_pos h1]
      refine ⟨?_, ?_, ?_⟩ <;> simp <;> omega
    · rw [if_neg h1]
      refine ⟨?_, ?_, ?_⟩ <;> simp <;> omega

/-- Claim C9: the classifier flags a case as interesting exactly when its
keyword list is non-empty. -/
theorem analyzeCase_isInteresting_iff (caseData : RawCaseRecord) :
    (analyzeCase caseData).isInteresting = true
      ↔ (analyzeCase caseData).keywords ≠ [] := by
  simp only [analyzeCase, decide_eq_true_eq]
  exact List.length_pos

/-- Claim C10: `formatResults` emits exactly one formatted record per case
per batch — its output length is the sum of the batch case counts — and it
deduplicates nothing: for every docket id, the number of output records
carrying that id equals the total number of input cases carrying it, so a
docket id appearing in two batches yields two records. -/
theorem formatResults_one_record_per_case (batches : List ScanBatch) :
    (formatResults batches).length = (batches.map fun b => b.cases.length).sum ∧
      ∀ d : Nat, ((formatResults batches).countP fun r => r.id == d)
        = (batches.map fun b => b.cases.countP fun c => c.docket_id == d).sum := by
  constructor
  · rw [formatResults, (List.perm_insertionSort sortLe _).length_eq, formattedOf,
      List.length_flatMap]
    refine congrArg List.sum (List.map_congr_left ?_)
    intro b _
    simp
  · intro d
    rw [formatResults, (List.perm_insertionSort sortLe _).countP_eq, formattedOf,
      List.countP_flatMap]
    refine congrArg List.sum (List.map_congr_left ?_)
    intro b _
    simp only [Function.comp_apply]
    rw [List.countP_map]
    rfl
